import Mathlib

/-!
Shallow embedding of the campaign scheduling engine of the `leadsender`
repository (source: the `CampaignScheduler` class), together with proofs
and refutations of the frozen specification claims.

Conventions of the embedding:
* the better-sqlite3 database is a `DB` record of lists of rows;
* SQL `UPDATE ... WHERE` statements become `List.map` with a conditional
  row transformer; SQL `SELECT ... LIMIT 1` becomes `List.find?`;
* the BlackList tag join (`contacts` × `contact_tags` × `tags`,
  `t.name = 'BlackList'`) is abstracted as the list of phone numbers that
  carry the tag (`DB.blacklist`);
* the in-memory `CampaignState` (one entry of the `activeCampaigns` map)
  keeps `accountTimeouts` as the list of account ids with an armed timer
  and `messagesSentToday` as an association list;
* every database call in the class is synchronous (better-sqlite3), so a
  stretch of code with no `await` runs atomically on the single-threaded
  event loop; the multi-worker transition system `Step` below makes each
  such stretch one atomic step.
-/

/-- Campaign status values persisted in the `campaigns` table. -/
inductive CStatus where
  | draft | running | paused | stopped | completed
deriving DecidableEq, Repr

/-- Contact status values persisted in the `campaign_contacts` table. -/
inductive KStatus where
  | pending | sending | sent | failed
deriving DecidableEq, Repr

/-- A row of the `campaigns` table (fields the scheduler reads/writes). -/
structure Campaign where
  id : Nat
  name : String
  message : String
  status : CStatus
  min_delay : Nat
  max_delay : Nat
  max_messages_per_day : Nat
  start_hour : Nat
  end_hour : Nat
  started_at : Option Nat
  completed_at : Option Nat
deriving DecidableEq, Repr

/-- A row of the `campaign_contacts` table. -/
structure Contact where
  id : Nat
  campaign_id : Nat
  phone_number : String
  status : KStatus
  sent_by_account_id : Option Nat
  sent_at : Option Nat
  error : Option String
deriving DecidableEq, Repr

/-- The slice of the database the scheduler touches.  `blacklist` is the
set of phone numbers carrying the `BlackList` tag (the three-way join in
the source's claim query), and `campaign_accounts` is the many-to-many
table as (campaign_id, account_id) pairs. -/
structure DB where
  campaigns : List Campaign
  contacts : List Contact
  blacklist : List String
  campaign_accounts : List (Nat × Nat)
deriving DecidableEq, Repr

/-- `getCampaign`: `SELECT * FROM campaigns WHERE id = ?`. -/
def getCampaign (db : DB) (cid : Nat) : Option Campaign :=
  db.campaigns.find? (fun c => decide (c.id = cid))

/-- Persisted status of a campaign, when the row exists. -/
def statusOf (db : DB) (cid : Nat) : Option CStatus :=
  (getCampaign db cid).map (fun c => c.status)

/-- Whether a phone number carries the BlackList tag. -/
def isBlacklisted (db : DB) (phone : String) : Bool :=
  decide (phone ∈ db.blacklist)

/-- The claim query (source lines 338-349): first `pending` contact of the
campaign whose phone number is not in the BlackList join. -/
def claimNextQuery (db : DB) (cid : Nat) : Option Contact :=
  db.contacts.find? (fun c =>
    decide (c.campaign_id = cid ∧ c.status = KStatus.pending ∧
            isBlacklisted db c.phone_number = false))

/-- The claim update (source lines 428-433): `UPDATE campaign_contacts SET
status = 'sending' WHERE id = ?`.  Note it records no claimant:
`sent_by_account_id` stays as it was (NULL for a fresh claim). -/
def claimContact (db : DB) (contactId : Nat) : DB :=
  { db with contacts := db.contacts.map (fun c =>
      if c.id = contactId then { c with status := KStatus.sending } else c) }

/-- Count of pending blacklisted contacts of the campaign (source lines
353-363). -/
def countBlacklistedPending (db : DB) (cid : Nat) : Nat :=
  db.contacts.countP (fun c =>
    decide (c.campaign_id = cid ∧ c.status = KStatus.pending ∧
            isBlacklisted db c.phone_number = true))

/-- The blacklist cleanup pass (source lines 369-380): every pending
blacklisted contact of the campaign becomes `failed` with error
`Contact in BlackList`. -/
def failAllBlacklistedPending (db : DB) (cid : Nat) : DB :=
  { db with contacts := db.contacts.map (fun c =>
      if c.campaign_id = cid ∧ c.status = KStatus.pending ∧
         isBlacklisted db c.phone_number = true
      then { c with status := KStatus.failed, error := some "Contact in BlackList" }
      else c) }

/-- Count of contacts of the campaign stuck in `sending` (source lines
387-391). -/
def countStuckSending (db : DB) (cid : Nat) : Nat :=
  db.contacts.countP (fun c =>
    decide (c.campaign_id = cid ∧ c.status = KStatus.sending))

/-- The disconnected-account release (source lines 320-324):
`UPDATE campaign_contacts SET status = 'pending' WHERE campaign_id = ?
AND status = 'sending' AND sent_by_account_id IS NULL`. -/
def releaseStuckContacts (db : DB) (cid : Nat) : DB :=
  { db with contacts := db.contacts.map (fun c =>
      if c.campaign_id = cid ∧ c.status = KStatus.sending ∧ c.sent_by_account_id = none
      then { c with status := KStatus.pending }
      else c) }

/-- Successful-send update (source lines 463-468). -/
def markContactSent (db : DB) (contactId accountId now : Nat) : DB :=
  { db with contacts := db.contacts.map (fun c =>
      if c.id = contactId
      then { c with status := KStatus.sent, sent_by_account_id := some accountId,
                    sent_at := some now }
      else c) }

/-- Permanent-failure update (source lines 529-534). -/
def markContactFailed (db : DB) (contactId : Nat) (err : String) : DB :=
  { db with contacts := db.contacts.map (fun c =>
      if c.id = contactId
      then { c with status := KStatus.failed, error := some err }
      else c) }

/-- Transient-failure update (source lines 547-552). -/
def markContactPending (db : DB) (contactId : Nat) : DB :=
  { db with contacts := db.contacts.map (fun c =>
      if c.id = contactId then { c with status := KStatus.pending } else c) }

/-- JavaScript `String.prototype.toLowerCase` (`Char.toLower` mapped over
the characters; agrees with ASCII lowercasing on every pattern the
classifier uses). -/
def toLowerStr (s : String) : String :=
  String.mk (s.data.map Char.toLower)

/-- JavaScript `String.prototype.includes` on character lists. -/
def containsList (pat : List Char) : List Char → Bool
  | [] => pat.isEmpty
  | c :: cs => pat.isPrefixOf (c :: cs) || containsList pat cs

/-- JavaScript `msg.includes(pat)`. -/
def strIncludes (s pat : String) : Bool :=
  containsList pat.toList s.toList

/-- The permanent-failure classifier (source lines 492-522) applied to the
already-lowercased error message. -/
def isPermanentFailure (errorMsg : String) : Bool :=
  strIncludes errorMsg "banned" ||
  strIncludes errorMsg "blocked" ||
  strIncludes errorMsg "restricted" ||
  strIncludes errorMsg "account has been" ||
  strIncludes errorMsg "not registered" ||
  strIncludes errorMsg "phone number not registered" ||
  strIncludes errorMsg "invalid phone" ||
  strIncludes errorMsg "phone number must include" ||
  strIncludes errorMsg "invalid number" ||
  strIncludes errorMsg "does not exist" ||
  strIncludes errorMsg "chat not found" ||
  strIncludes errorMsg "contact not found" ||
  strIncludes errorMsg "recipient not found" ||
  strIncludes errorMsg "recipient not available" ||
  strIncludes errorMsg "user not found" ||
  strIncludes errorMsg "number is not on whatsapp" ||
  strIncludes errorMsg "you have been blocked" ||
  strIncludes errorMsg "this contact blocked you" ||
  strIncludes errorMsg "privacy settings" ||
  strIncludes errorMsg "cannot send message to this contact" ||
  strIncludes errorMsg "invalid format" ||
  strIncludes errorMsg "malformed" ||
  strIncludes errorMsg "invalid input"

/-- The catch block of the send (source lines 486-554): lowercase the
message, classify, then either mark failed with the original text or
revert to pending. -/
def handleSendFailure (db : DB) (contactId : Nat) (msg : String) : DB :=
  if isPermanentFailure (toLowerStr msg)
  then markContactFailed db contactId msg
  else markContactPending db contactId

/-- The working-hours test of source line 243: the cycle treats the hour as
outside the window iff `currentHour < start_hour || currentHour >=
end_hour`; this is the within-window complement. -/
def isWithinWindow (hour startHour endHour : Nat) : Bool :=
  !(decide (hour < startHour) || decide (endHour ≤ hour))

/-- The in-memory `CampaignState` entry of the `activeCampaigns` map:
`accountTimeouts` is the list of account ids holding an armed timer,
`messagesSentToday` the per-account counter map, `lastResetDate` the
date-only key of the last counter reset. -/
structure CampaignState where
  isRunning : Bool
  accountTimeouts : List Nat
  messagesSentToday : List (Nat × Nat)
  lastResetDate : String
deriving DecidableEq, Repr

/-- `state.messagesSentToday.get(accountId) || 0`. -/
def sentTodayOf (st : CampaignState) (accountId : Nat) : Nat :=
  (st.messagesSentToday.lookup accountId).getD 0

/-- `state.messagesSentToday.set(accountId, current + 1)` (source lines
471-472). -/
def bumpSentToday (st : CampaignState) (accountId : Nat) : CampaignState :=
  { st with messagesSentToday :=
      (accountId, sentTodayOf st accountId + 1) ::
        st.messagesSentToday.filter (fun p => decide (p.1 ≠ accountId)) }

/-- `state.accountTimeouts.set(accountId, timeout)`. -/
def armTimeout (st : CampaignState) (accountId : Nat) : CampaignState :=
  { st with accountTimeouts :=
      if accountId ∈ st.accountTimeouts then st.accountTimeouts
      else accountId :: st.accountTimeouts }

/-- `state.accountTimeouts.delete(accountId)` (source lines 402-406). -/
def dropTimeout (st : CampaignState) (accountId : Nat) : CampaignState :=
  { st with accountTimeouts := st.accountTimeouts.filter (fun a => decide (a ≠ accountId)) }

/-- `resetDailyCountersIfNeeded` (source lines 562-571): clear the counter
map when the stored date key differs from today's. -/
def resetDailyCountersIfNeeded (st : CampaignState) (todayKey : String) : CampaignState :=
  if st.lastResetDate ≠ todayKey
  then { st with messagesSentToday := [], lastResetDate := todayKey }
  else st

/-- `UPDATE campaigns SET status = 'paused' WHERE id = ?` (the database
part of `pauseCampaign`, source lines 171-172). -/
def pauseDbUpdate (db : DB) (cid : Nat) : DB :=
  { db with campaigns := db.campaigns.map (fun c =>
      if c.id = cid then { c with status := CStatus.paused } else c) }

/-- `UPDATE campaigns SET status = 'stopped', completed_at = ? WHERE id = ?`
(the database part of `stopCampaign`, source lines 187-192). -/
def stopDbUpdate (db : DB) (cid now : Nat) : DB :=
  { db with campaigns := db.campaigns.map (fun c =>
      if c.id = cid
      then { c with status := CStatus.stopped, completed_at := some now }
      else c) }

/-- `UPDATE campaigns SET status = 'completed', completed_at = ? WHERE id = ?`
(source lines 414-419). -/
def completedDbUpdate (db : DB) (cid now : Nat) : DB :=
  { db with campaigns := db.campaigns.map (fun c =>
      if c.id = cid
      then { c with status := CStatus.completed, completed_at := some now }
      else c) }

/-- The database writes of the completion path of the cycle (source lines
408-423): it first runs `stopCampaign` — which persists status `stopped`
— and then persists status `completed`. -/
def completeCampaignDb (db : DB) (cid now : Nat) : DB :=
  completedDbUpdate (stopDbUpdate db cid now) cid now

/-- Result of one transport send attempt, as surfaced to the worker. -/
inductive SendOutcome where
  | success
  | failure (msg : String)

/-- What one invocation of `sendNextMessageFromAccount` did. -/
inductive CycleAction where
  | noCampaign
  | dailyLimitDeferred (wakeDay wakeHour : Nat)
  | notConnectedSkip
  | stuckRetry
  | campaignCompleted
  | accountDone
  | sentOk (contactId : Nat)
  | failedPermanent (contactId : Nat) (msg : String)
  | failedTransient (contactId : Nat) (msg : String)
deriving DecidableEq, Repr

/-- One invocation of `sendNextMessageFromAccount` (source lines 288-555),
relative to its environment: `today` the current day index, `now` a
timestamp, `connected` the `whatsappManager.isConnected(accountId)`
answer, `transport` the result of the awaited send.  Returns the updated
database, the updated in-memory state, and the action taken. -/
def sendNextMessageFromAccount (db : DB) (st : CampaignState) (cid accountId : Nat)
    (today now : Nat) (connected : Bool) (transport : Contact → SendOutcome) :
    DB × CampaignState × CycleAction :=
  match getCampaign db cid with
  | none => (db, st, CycleAction.noCampaign)
  | some campaign =>
    if campaign.max_messages_per_day ≤ sentTodayOf st accountId then
      -- daily limit reached: schedule for tomorrow at start_hour, no claim
      (db, armTimeout st accountId,
       CycleAction.dailyLimitDeferred (today + 1) campaign.start_hour)
    else if !connected then
      -- release stuck claims, claim nothing this cycle
      (releaseStuckContacts db cid, st, CycleAction.notConnectedSkip)
    else
      match claimNextQuery db cid with
      | none =>
        let db1 := if 0 < countBlacklistedPending db cid
                   then failAllBlacklistedPending db cid else db
        if 0 < countStuckSending db1 cid then
          (db1, armTimeout st accountId, CycleAction.stuckRetry)
        else
          let st1 := dropTimeout st accountId
          if st1.accountTimeouts.isEmpty then
            (completeCampaignDb db1 cid now, st1, CycleAction.campaignCompleted)
          else
            (db1, st1, CycleAction.accountDone)
      | some contact =>
        let db1 := claimContact db contact.id
        match transport contact with
        | SendOutcome.success =>
            (markContactSent db1 contact.id accountId now,
             bumpSentToday st accountId, CycleAction.sentOk contact.id)
        | SendOutcome.failure msg =>
            if isPermanentFailure (toLowerStr msg) then
              (markContactFailed db1 contact.id msg, st,
               CycleAction.failedPermanent contact.id msg)
            else
              (markContactPending db1 contact.id, st,
               CycleAction.failedTransient contact.id msg)

/-- The scheduler: database plus the in-memory `activeCampaigns` map
(association list keyed by campaign id). -/
structure Scheduler where
  db : DB
  activeCampaigns : List (Nat × CampaignState)
deriving DecidableEq, Repr

/-- `UPDATE campaigns SET status = 'running', started_at =
COALESCE(started_at, ?) WHERE id = ?` (source lines 127-132). -/
def startDbUpdate (db : DB) (cid now : Nat) : DB :=
  { db with campaigns := db.campaigns.map (fun c =>
      if c.id = cid
      then { c with status := CStatus.running,
                    started_at := some (c.started_at.getD now) }
      else c) }

/-- `SELECT account_id FROM campaign_accounts WHERE campaign_id = ?`. -/
def participatingAccounts (db : DB) (cid : Nat) : List Nat :=
  (db.campaign_accounts.filter (fun p => decide (p.1 = cid))).map (fun p => p.2)

/-- Fresh `CampaignState` installed by `startCampaign` (source lines
146-151). -/
def freshState (todayKey : String) : CampaignState :=
  { isRunning := true, accountTimeouts := [], messagesSentToday := [],
    lastResetDate := todayKey }

/-- `startCampaign` (source lines 113-158).  Returns the updated scheduler
and the list of account ids for which a worker cycle was spawned.  Note
the order of the source: the already-active check, the existence check,
then the status update to `running`, and only after that the
zero-accounts check. -/
def startCampaign (s : Scheduler) (cid now : Nat) (todayKey : String) :
    Scheduler × List Nat :=
  if (s.activeCampaigns.lookup cid).isSome then (s, [])
  else
    match getCampaign s.db cid with
    | none => (s, [])
    | some _ =>
      let db1 := startDbUpdate s.db cid now
      let accounts := participatingAccounts db1 cid
      if accounts.isEmpty then ({ s with db := db1 }, [])
      else
        ({ db := db1,
           activeCampaigns := (cid, freshState todayKey) :: s.activeCampaigns },
         accounts)

/-- `pauseCampaign` (source lines 160-173): flips the in-memory entry to
not-running and clears its timers but keeps it in `activeCampaigns`;
persists status `paused`. -/
def pauseCampaign (s : Scheduler) (cid : Nat) : Scheduler :=
  { db := pauseDbUpdate s.db cid,
    activeCampaigns := s.activeCampaigns.map (fun p =>
      if p.1 = cid
      then (p.1, { p.2 with isRunning := false, accountTimeouts := [] })
      else p) }

/-- `stopCampaign` (source lines 175-193): like pause but deletes the
in-memory entry; persists status `stopped` with `completed_at` stamped. -/
def stopCampaign (s : Scheduler) (cid now : Nat) : Scheduler :=
  { db := stopDbUpdate s.db cid now,
    activeCampaigns := s.activeCampaigns.filter (fun p => decide (p.1 ≠ cid)) }

/-- The contact bulk-revert of `resetCampaign` (source lines 200-208). -/
def resetContactsUpdate (db : DB) (cid : Nat) : DB :=
  { db with contacts := db.contacts.map (fun c =>
      if c.campaign_id = cid
      then { c with status := KStatus.pending, sent_by_account_id := none,
                    sent_at := none, error := none }
      else c) }

/-- The campaign update of `resetCampaign` (source lines 211-216). -/
def resetDbUpdate (db : DB) (cid : Nat) : DB :=
  { db with campaigns := db.campaigns.map (fun c =>
      if c.id = cid
      then { c with status := CStatus.draft, started_at := none,
                    completed_at := none }
      else c) }

/-- `resetCampaign` (source lines 195-219): stop, bulk-revert contacts,
persist status `draft` with timestamps cleared. -/
def resetCampaign (s : Scheduler) (cid now : Nat) : Scheduler :=
  let s1 := stopCampaign s cid now
  { db := resetDbUpdate (resetContactsUpdate s1.db cid) cid,
    activeCampaigns := s1.activeCampaigns }

/-- C4: Working-hours gating over the half-open window [startHour, endHour):
`isWithinWindow h 9 18` is true exactly for h ∈ [9,17] and false on
{0..8, 18..23}, and the window (0, 24) is within-window for every hour
0..23 (always on). -/
theorem C4_working_hours_gating :
    (∀ h : Fin 24, isWithinWindow h.val 9 18 = decide (9 ≤ h.val ∧ h.val ≤ 17)) ∧
    (∀ h : Fin 24, isWithinWindow h.val 0 24 = true) := by
  constructor <;> decide

/-! ### Generic helper lemmas about the row-mapping updates -/

lemma getCampaign_mapped (db : DB) (cid : Nat) (f : Campaign → Campaign)
    (hf : ∀ c, (f c).id = c.id) :
    getCampaign { db with campaigns := db.campaigns.map f } cid =
      (getCampaign db cid).map f := by
  unfold getCampaign
  have hp : ((fun c : Campaign => decide (c.id = cid)) ∘ f) =
      (fun c : Campaign => decide (c.id = cid)) := by
    funext c
    simp [Function.comp, hf]
  rw [List.find?_map, hp]

lemma campaign_found_id (db : DB) (cid : Nat) (camp : Campaign)
    (hc : getCampaign db cid = some camp) : camp.id = cid := by
  unfold getCampaign at hc
  have h1 := List.find?_some hc
  simpa using h1

lemma claimNextQuery_found (db : DB) (cid : Nat) (c : Contact)
    (hc : claimNextQuery db cid = some c) :
    c.campaign_id = cid ∧ c.status = KStatus.pending ∧
      isBlacklisted db c.phone_number = false := by
  unfold claimNextQuery at hc
  have h1 := List.find?_some hc
  simpa using h1

lemma statusOf_mapped (db : DB) (cid : Nat) (f : Campaign → Campaign)
    (hf : ∀ c, (f c).id = c.id) (camp : Campaign)
    (hc : getCampaign db cid = some camp) :
    statusOf { db with campaigns := db.campaigns.map f } cid = some (f camp).status := by
  unfold statusOf
  rw [getCampaign_mapped db cid f hf, hc]
  rfl

/-- C5: Blacklist exclusion.  A contact returned by the claim query is a
pending contact of the campaign whose phone is not blacklisted; and when
the claim query finds nothing (no non-blacklisted pending contact
remains), the cleanup pass leaves no pending contact of the campaign and
maps every blacklisted pending contact to `failed` with error exactly
`Contact in BlackList`. -/
theorem C5_blacklist_exclusion (db : DB) (cid : Nat) :
    (∀ c : Contact, claimNextQuery db cid = some c →
        c.campaign_id = cid ∧ c.status = KStatus.pending ∧
        isBlacklisted db c.phone_number = false) ∧
    (claimNextQuery db cid = none →
      (∀ c ∈ (failAllBlacklistedPending db cid).contacts,
          c.campaign_id = cid → c.status ≠ KStatus.pending) ∧
      (∀ c ∈ db.contacts,
          c.campaign_id = cid → c.status = KStatus.pending →
          isBlacklisted db c.phone_number = true →
          { c with status := KStatus.failed, error := some "Contact in BlackList" }
            ∈ (failAllBlacklistedPending db cid).contacts)) := by
  constructor
  · intro c hc
    exact claimNextQuery_found db cid c hc
  · intro hnone
    unfold claimNextQuery at hnone
    have hall := List.find?_eq_none.mp hnone
    constructor
    · intro c hmem hcid
      simp only [failAllBlacklistedPending] at hmem
      obtain ⟨c0, hc0, hfc0⟩ := List.mem_map.1 hmem
      by_cases hcond : c0.campaign_id = cid ∧ c0.status = KStatus.pending ∧
          isBlacklisted db c0.phone_number = true
      · rw [if_pos hcond] at hfc0
        intro hpend
        rw [← hfc0] at hpend
        cases hpend
      · rw [if_neg hcond] at hfc0
        subst hfc0
        intro hpend
        have hnb := hall c0 hc0
        simp only [decide_eq_true_eq, not_and] at hnb
        have hbl : isBlacklisted db c0.phone_number = true := by
          have := hnb hcid hpend
          revert this
          cases isBlacklisted db c0.phone_number <;> simp
        exact hcond ⟨hcid, hpend, hbl⟩
    · intro c hmem hcid hpend hbl
      simp only [failAllBlacklistedPending]
      refine List.mem_map.2 ⟨c, hmem, ?_⟩
      rw [if_pos ⟨hcid, hpend, hbl⟩]

def cC5a : Contact := ⟨11, 1, "+111", KStatus.pending, none, none, none⟩
def cC5b : Contact := ⟨12, 1, "+222", KStatus.pending, none, none, none⟩
def dbC5a : DB := ⟨[], [cC5a, cC5b], ["+222"], []⟩
def dbC5b : DB := ⟨[], [cC5b], ["+222"], []⟩

/-- Witness for C5 at a concrete database: the claim query returns the
non-blacklisted pending contact, and once it returns none the blacklisted
pending contact is failed with the exact error text. -/
theorem C5_blacklist_exclusion_witness :
    (cC5a.campaign_id = 1 ∧ cC5a.status = KStatus.pending ∧
     isBlacklisted dbC5a cC5a.phone_number = false) ∧
    { cC5b with status := KStatus.failed, error := some "Contact in BlackList" }
      ∈ (failAllBlacklistedPending dbC5b 1).contacts :=
  ⟨(C5_blacklist_exclusion dbC5a 1).1 cC5a (by decide),
   ((C5_blacklist_exclusion dbC5b 1).2 (by decide)).2 cC5b (by decide)
     (by decide) (by decide) (by decide)⟩

/-- C6: Failure classification.  A lowercased error message containing
`banned`, `not registered` or `blocked` is classified permanent and the
contact is marked `failed` carrying the original error text; a `failed`
contact is never returned by the claim query again (never retried); a
message matching no permanent pattern (e.g. a timeout or a not-ready
session) sends the contact back to `pending`. -/
theorem C6_failure_classification :
    (∀ msg : String,
        (strIncludes (toLowerStr msg) "banned" ||
         strIncludes (toLowerStr msg) "not registered" ||
         strIncludes (toLowerStr msg) "blocked") = true →
        isPermanentFailure (toLowerStr msg) = true) ∧
    (∀ (db : DB) (c : Contact) (msg : String), c ∈ db.contacts →
        isPermanentFailure (toLowerStr msg) = true →
        { c with status := KStatus.failed, error := some msg }
          ∈ (handleSendFailure db c.id msg).contacts) ∧
    (∀ (db : DB) (cid : Nat) (c : Contact),
        claimNextQuery db cid = some c → c.status ≠ KStatus.failed) ∧
    (∀ (db : DB) (c : Contact) (msg : String), c ∈ db.contacts →
        isPermanentFailure (toLowerStr msg) = false →
        { c with status := KStatus.pending }
          ∈ (handleSendFailure db c.id msg).contacts) ∧
    isPermanentFailure (toLowerStr "Send Timeout") = false ∧
    isPermanentFailure (toLowerStr "WhatsApp session not ready") = false := by
  refine ⟨?_, ?_, ?_, ?_, by decide, by decide⟩
  · intro msg h
    simp only [Bool.or_eq_true] at h
    rcases h with (h | h) | h <;> simp [isPermanentFailure, h]
  · intro db c msg hmem hperm
    simp only [handleSendFailure, if_pos hperm, markContactFailed]
    exact List.mem_map.2 ⟨c, hmem, by simp⟩
  · intro db cid c h
    have hp := (claimNextQuery_found db cid c h).2.1
    rw [hp]
    exact fun hh => KStatus.noConfusion hh
  · intro db c msg hmem hperm
    simp only [handleSendFailure, hperm, Bool.false_eq_true, if_false, markContactPending]
    exact List.mem_map.2 ⟨c, hmem, by simp⟩

def cC6 : Contact := ⟨21, 1, "+333", KStatus.sending, none, none, none⟩
def dbC6 : DB := ⟨[], [cC6], [], []⟩

/-- Witness for C6 at concrete inputs: a `banned` message is permanent and
parks the contact in `failed` with the original text; a timeout message is
transient and reverts the contact to `pending`. -/
theorem C6_failure_classification_witness :
    isPermanentFailure (toLowerStr "Account BANNED by WhatsApp") = true ∧
    { cC6 with status := KStatus.failed, error := some "Account BANNED by WhatsApp" }
      ∈ (handleSendFailure dbC6 cC6.id "Account BANNED by WhatsApp").contacts ∧
    { cC6 with status := KStatus.pending }
      ∈ (handleSendFailure dbC6 cC6.id "Send Timeout").contacts :=
  ⟨C6_failure_classification.1 "Account BANNED by WhatsApp" (by decide),
   C6_failure_classification.2.1 dbC6 cC6 "Account BANNED by WhatsApp" (by decide) (by decide),
   C6_failure_classification.2.2.2.1 dbC6 cC6 "Send Timeout" (by decide) (by decide)⟩

lemma sentTodayOf_armTimeout (st : CampaignState) (a b : Nat) :
    sentTodayOf (armTimeout st a) b = sentTodayOf st b := rfl

lemma sentTodayOf_dropTimeout (st : CampaignState) (a b : Nat) :
    sentTodayOf (dropTimeout st a) b = sentTodayOf st b := rfl

lemma sentTodayOf_bump (st : CampaignState) (a : Nat) :
    sentTodayOf (bumpSentToday st a) a = sentTodayOf st a + 1 := by
  simp [sentTodayOf, bumpSentToday, List.lookup]

/-- C3: Daily cap.  With the campaign loaded, (1) once the account's
today-count has reached `max_messages_per_day` the cycle claims nothing,
sends nothing, leaves the database untouched and schedules the next wake
for tomorrow at `start_hour`; (2) a cycle never pushes the counter past
the cap; (3) once the date key advances the reset clears the counter to
zero. -/
theorem C3_daily_cap (db : DB) (st : CampaignState) (cid accountId today now : Nat)
    (connected : Bool) (transport : Contact → SendOutcome) (camp : Campaign)
    (todayKey : String) (hc : getCampaign db cid = some camp) :
    (camp.max_messages_per_day ≤ sentTodayOf st accountId →
      sendNextMessageFromAccount db st cid accountId today now connected transport =
        (db, armTimeout st accountId,
         CycleAction.dailyLimitDeferred (today + 1) camp.start_hour)) ∧
    (sentTodayOf st accountId ≤ camp.max_messages_per_day →
      sentTodayOf
        (sendNextMessageFromAccount db st cid accountId today now connected transport).2.1
        accountId ≤ camp.max_messages_per_day) ∧
    (st.lastResetDate ≠ todayKey →
      sentTodayOf (resetDailyCountersIfNeeded st todayKey) accountId = 0) := by
  refine ⟨?_, ?_, ?_⟩
  · intro hlim
    simp only [sendNextMessageFromAccount, hc, if_pos hlim]
  · intro hle
    simp only [sendNextMessageFromAccount, hc]
    by_cases hlim : camp.max_messages_per_day ≤ sentTodayOf st accountId
    · simpa [if_pos hlim, sentTodayOf_armTimeout] using hle
    · have hlt : sentTodayOf st accountId < camp.max_messages_per_day :=
        Nat.lt_of_not_le hlim
      simp only [if_neg hlim]
      cases connected with
      | false => simpa using hle
      | true =>
        simp only [Bool.not_true, Bool.false_eq_true, if_false]
        rcases hq : claimNextQuery db cid with _ | contact
        · simp only [hq]
          repeat' split
          all_goals exact hle
        · simp only [hq]
          rcases ht : transport contact with _ | msg
          · simp only [ht, sentTodayOf_bump]
            omega
          · simp only [ht]
            split
            · exact hle
            · exact hle
  · intro hne
    simp [resetDailyCountersIfNeeded, hne, sentTodayOf]

def campC3 : Campaign := ⟨1, "c3", "m", CStatus.running, 1, 3, 2, 9, 18, none, none⟩
def dbC3 : DB := ⟨[campC3], [], [], []⟩
def stC3 : CampaignState := ⟨true, [50], [(50, 2)], "2026-01-01"⟩

/-- Witness for C3: an account at its cap of 2 defers to tomorrow's
start_hour without touching the database, and the next-day reset clears
the counter. -/
theorem C3_daily_cap_witness :
    sendNextMessageFromAccount dbC3 stC3 1 50 7 99 true (fun _ => SendOutcome.success) =
      (dbC3, armTimeout stC3 50, CycleAction.dailyLimitDeferred 8 9) ∧
    sentTodayOf (resetDailyCountersIfNeeded stC3 "2026-01-02") 50 = 0 :=
  ⟨(C3_daily_cap dbC3 stC3 1 50 7 99 true (fun _ => SendOutcome.success) campC3
      "2026-01-02" (by decide)).1 (by decide),
   (C3_daily_cap dbC3 stC3 1 50 7 99 true (fun _ => SendOutcome.success) campC3
      "2026-01-02" (by decide)).2.2 (by decide)⟩

def campC2 : Campaign := ⟨1, "c2", "m", CStatus.draft, 1, 3, 10, 9, 18, none, none⟩
def schC2 : Scheduler := ⟨⟨[campC2], [], [], []⟩, []⟩

/-- Counterexample to C2: a draft campaign with zero participating
accounts.  `startCampaign` spawns no worker and creates no in-memory
state, but it has already persisted status `running` before the
zero-accounts check, so the campaign does NOT stay in its current
status. -/
theorem C2_counterexample :
    statusOf schC2.db 1 = some CStatus.draft ∧
    participatingAccounts schC2.db 1 = [] ∧
    (startCampaign schC2 1 5 "2026-01-01").2 = [] ∧
    (startCampaign schC2 1 5 "2026-01-01").1.activeCampaigns = [] ∧
    statusOf (startCampaign schC2 1 5 "2026-01-01").1.db 1 = some CStatus.running := by
  decide

/-- C2 amended: when the campaign exists, is not already active and has
zero participating accounts, `startCampaign` spawns no workers and leaves
`activeCampaigns` untouched, but the campaign's persisted status has
already been set to `running` (with `started_at` stamped) before the
zero-accounts check. -/
theorem C2_zero_accounts_amended (s : Scheduler) (cid now : Nat) (todayKey : String)
    (hact : (s.activeCampaigns.lookup cid).isSome = false)
    (camp : Campaign) (hc : getCampaign s.db cid = some camp)
    (hacc : participatingAccounts s.db cid = []) :
    startCampaign s cid now todayKey =
      ({ s with db := startDbUpdate s.db cid now }, []) ∧
    (startCampaign s cid now todayKey).1.activeCampaigns = s.activeCampaigns ∧
    statusOf (startCampaign s cid now todayKey).1.db cid = some CStatus.running := by
  have hacc1 : participatingAccounts (startDbUpdate s.db cid now) cid = [] := hacc
  have hmain : startCampaign s cid now todayKey =
      ({ s with db := startDbUpdate s.db cid now }, []) := by
    unfold startCampaign
    rw [hact]
    simp only [Bool.false_eq_true, if_false, hc, hacc1, List.isEmpty_nil, if_true]
  refine ⟨hmain, by rw [hmain], ?_⟩
  rw [hmain]
  show statusOf (startDbUpdate s.db cid now) cid = some CStatus.running
  unfold startDbUpdate
  rw [statusOf_mapped s.db cid _ ?hf camp hc]
  case hf => intro c; by_cases h : c.id = cid <;> simp [h]
  simp [campaign_found_id s.db cid camp hc]

/-- Witness for the amended C2 at the concrete zero-account scheduler. -/
theorem C2_zero_accounts_amended_witness :
    startCampaign schC2 1 5 "2026-01-01" =
      ({ schC2 with db := startDbUpdate schC2.db 1 5 }, []) ∧
    (startCampaign schC2 1 5 "2026-01-01").1.activeCampaigns = schC2.activeCampaigns ∧
    statusOf (startCampaign schC2 1 5 "2026-01-01").1.db 1 = some CStatus.running :=
  C2_zero_accounts_amended schC2 1 5 "2026-01-01" (by decide) campC2 (by decide) (by decide)

lemma lookup_pause_map (l : List (Nat × CampaignState)) (cid : Nat) :
    (l.map (fun p =>
      if p.1 = cid
      then (p.1, { p.2 with isRunning := false, accountTimeouts := [] })
      else p)).lookup cid =
    (l.lookup cid).map
      (fun st => { st with isRunning := false, accountTimeouts := [] }) := by
  induction l with
  | nil => rfl
  | cons p l ih =>
    rcases p with ⟨k, v⟩
    by_cases h : k = cid
    · subst h
      simp [List.lookup_cons]
    · simp [List.lookup_cons, h, beq_false_of_ne (Ne.symm h), ih]

/-- C10 (implicit): `pauseCampaign` keeps the campaign's in-memory entry in
`activeCampaigns` (only flipping `isRunning` and clearing its timers), so
a later `startCampaign` in the same process hits the already-active check
and is a complete no-op: no workers spawned, nothing written, the
campaign stays `paused`. -/
theorem C10_pause_then_start_noop (s : Scheduler) (cid now : Nat)
    (todayKey : String) (st : CampaignState)
    (hact : s.activeCampaigns.lookup cid = some st)
    (camp : Campaign) (hc : getCampaign s.db cid = some camp) :
    (pauseCampaign s cid).activeCampaigns.lookup cid =
      some { st with isRunning := false, accountTimeouts := [] } ∧
    statusOf (pauseCampaign s cid).db cid = some CStatus.paused ∧
    startCampaign (pauseCampaign s cid) cid now todayKey = (pauseCampaign s cid, []) := by
  have hl : (pauseCampaign s cid).activeCampaigns.lookup cid =
      some { st with isRunning := false, accountTimeouts := [] } := by
    simp only [pauseCampaign]
    rw [lookup_pause_map, hact]
    rfl
  refine ⟨hl, ?_, ?_⟩
  · show statusOf (pauseDbUpdate s.db cid) cid = some CStatus.paused
    unfold pauseDbUpdate
    rw [statusOf_mapped s.db cid _ ?hf camp hc]
    case hf => intro c; by_cases h : c.id = cid <;> simp [h]
    simp [campaign_found_id s.db cid camp hc]
  · unfold startCampaign
    rw [hl]
    rfl

def campC10 : Campaign := ⟨1, "c10", "m", CStatus.running, 1, 3, 10, 9, 18, some 0, none⟩
def stC10 : CampaignState := ⟨true, [50], [(50, 1)], "2026-01-01"⟩
def schC10 : Scheduler := ⟨⟨[campC10], [], [], []⟩, [(1, stC10)]⟩

/-- Witness for C10 at a concrete active campaign. -/
theorem C10_pause_then_start_noop_witness :
    (pauseCampaign schC10 1).activeCampaigns.lookup 1 =
      some { stC10 with isRunning := false, accountTimeouts := [] } ∧
    statusOf (pauseCampaign schC10 1).db 1 = some CStatus.paused ∧
    startCampaign (pauseCampaign schC10 1) 1 5 "2026-01-01" = (pauseCampaign schC10 1, []) :=
  C10_pause_then_start_noop schC10 1 5 "2026-01-01" stC10 (by decide) campC10 (by decide)

def campC8 : Campaign := ⟨1, "c8", "m", CStatus.running, 1, 3, 10, 9, 18, some 0, none⟩
def dbC8 : DB := ⟨[campC8], [], [], []⟩
def stC8 : CampaignState := ⟨true, [50], [], "2026-01-01"⟩

/-- Counterexample to C8: on a running campaign whose queue is exhausted,
the worker cycle takes the completion path, whose write sequence persists
status `stopped` (inside `stopCampaign`) and then immediately `completed`
— a reachable stopped→completed transition of the persisted status, which
the claim says never occurs. -/
theorem C8_counterexample :
    statusOf dbC8 1 = some CStatus.running ∧
    sendNextMessageFromAccount dbC8 stC8 1 50 7 99 true (fun _ => SendOutcome.success) =
      (completeCampaignDb dbC8 1 99, dropTimeout stC8 50, CycleAction.campaignCompleted) ∧
    completeCampaignDb dbC8 1 99 = completedDbUpdate (stopDbUpdate dbC8 1 99) 1 99 ∧
    statusOf (stopDbUpdate dbC8 1 99) 1 = some CStatus.stopped ∧
    statusOf (completedDbUpdate (stopDbUpdate dbC8 1 99) 1 99) 1 = some CStatus.completed := by
  decide

/-- C8 amended: each lifecycle write persists exactly its designated
status — start→`running`, pause→`paused`, stop→`stopped`, the completion
path `stopped` then `completed` (so completion passes through `stopped`),
reset→`draft` — and no write other than the reset produces `draft`; the
operations do not otherwise inspect the previous status. -/
theorem C8_lifecycle_status_writes (db : DB) (cid now : Nat)
    (ac : List (Nat × CampaignState)) (camp : Campaign)
    (hc : getCampaign db cid = some camp) :
    statusOf (startDbUpdate db cid now) cid = some CStatus.running ∧
    statusOf (pauseDbUpdate db cid) cid = some CStatus.paused ∧
    statusOf (stopDbUpdate db cid now) cid = some CStatus.stopped ∧
    statusOf (completeCampaignDb db cid now) cid = some CStatus.completed ∧
    completeCampaignDb db cid now = completedDbUpdate (stopDbUpdate db cid now) cid now ∧
    statusOf (resetCampaign ⟨db, ac⟩ cid now).db cid = some CStatus.draft ∧
    statusOf (startDbUpdate db cid now) cid ≠ some CStatus.draft ∧
    statusOf (pauseDbUpdate db cid) cid ≠ some CStatus.draft ∧
    statusOf (stopDbUpdate db cid now) cid ≠ some CStatus.draft ∧
    statusOf (completeCampaignDb db cid now) cid ≠ some CStatus.draft := by
  have hid := campaign_found_id db cid camp hc
  have h1 : statusOf (startDbUpdate db cid now) cid = some CStatus.running := by
    unfold startDbUpdate
    rw [statusOf_mapped db cid _ ?hf camp hc]
    case hf => intro c; by_cases h : c.id = cid <;> simp [h]
    simp [hid]
  have h2 : statusOf (pauseDbUpdate db cid) cid = some CStatus.paused := by
    unfold pauseDbUpdate
    rw [statusOf_mapped db cid _ ?hf camp hc]
    case hf => intro c; by_cases h : c.id = cid <;> simp [h]
    simp [hid]
  have h3 : statusOf (stopDbUpdate db cid now) cid = some CStatus.stopped := by
    unfold stopDbUpdate
    rw [statusOf_mapped db cid _ ?hf camp hc]
    case hf => intro c; by_cases h : c.id = cid <;> simp [h]
    simp [hid]
  have hstopid : ∀ c : Campaign,
      ((fun c => if c.id = cid
        then { c with status := CStatus.stopped, completed_at := some now }
        else c) c).id = c.id := by
    intro c; by_cases h : c.id = cid <;> simp [h]
  have hstop : getCampaign (stopDbUpdate db cid now) cid =
      some { camp with status := CStatus.stopped, completed_at := some now } := by
    unfold stopDbUpdate
    rw [getCampaign_mapped db cid _ hstopid, hc]
    simp [hid]
  have h4 : statusOf (completeCampaignDb db cid now) cid = some CStatus.completed := by
    unfold completeCampaignDb completedDbUpdate
    rw [statusOf_mapped (stopDbUpdate db cid now) cid _ ?hf _ hstop]
    case hf => intro c; by_cases h : c.id = cid <;> simp [h]
    simp [hid]
  have h6 : statusOf (resetCampaign ⟨db, ac⟩ cid now).db cid = some CStatus.draft := by
    show statusOf (resetDbUpdate (resetContactsUpdate (stopDbUpdate db cid now) cid) cid) cid =
      some CStatus.draft
    have hcontacts : getCampaign (resetContactsUpdate (stopDbUpdate db cid now) cid) cid =
        some { camp with status := CStatus.stopped, completed_at := some now } := hstop
    unfold resetDbUpdate
    rw [statusOf_mapped _ cid _ ?hf _ hcontacts]
    case hf => intro c; by_cases h : c.id = cid <;> simp [h]
    simp [hid]
  refine ⟨h1, h2, h3, h4, rfl, h6, ?_, ?_, ?_, ?_⟩ <;> simp [h1, h2, h3, h4]

def campW8 : Campaign := ⟨2, "w8", "m", CStatus.running, 1, 3, 10, 9, 18, some 0, none⟩
def dbW8 : DB := ⟨[campW8], [], [], []⟩

/-- Witness for the amended C8 at a concrete database. -/
theorem C8_lifecycle_status_writes_witness :
    statusOf (startDbUpdate dbW8 2 9) 2 = some CStatus.running ∧
    statusOf (pauseDbUpdate dbW8 2) 2 = some CStatus.paused ∧
    statusOf (stopDbUpdate dbW8 2 9) 2 = some CStatus.stopped ∧
    statusOf (completeCampaignDb dbW8 2 9) 2 = some CStatus.completed ∧
    completeCampaignDb dbW8 2 9 = completedDbUpdate (stopDbUpdate dbW8 2 9) 2 9 ∧
    statusOf (resetCampaign ⟨dbW8, []⟩ 2 9).db 2 = some CStatus.draft ∧
    statusOf (startDbUpdate dbW8 2 9) 2 ≠ some CStatus.draft ∧
    statusOf (pauseDbUpdate dbW8 2) 2 ≠ some CStatus.draft ∧
    statusOf (stopDbUpdate dbW8 2 9) 2 ≠ some CStatus.draft ∧
    statusOf (completeCampaignDb dbW8 2 9) 2 ≠ some CStatus.draft :=
  C8_lifecycle_status_writes dbW8 2 9 [] campW8 (by decide)

/-- The per-row effect on `campaigns` of one `resetCampaign` (stop's write
followed by the draft write). -/
def resetCampaignRowFn (cid : Nat) (c : Campaign) : Campaign :=
  if c.id = cid
  then { c with status := CStatus.draft, started_at := none, completed_at := none }
  else c

/-- The per-row effect on `campaign_contacts` of one `resetCampaign`. -/
def resetContactRowFn (cid : Nat) (c : Contact) : Contact :=
  if c.campaign_id = cid
  then { c with status := KStatus.pending, sent_by_account_id := none,
                sent_at := none, error := none }
  else c

lemma resetCampaign_normal (s : Scheduler) (cid n : Nat) :
    resetCampaign s cid n =
      { db := { campaigns := s.db.campaigns.map (resetCampaignRowFn cid),
                contacts := s.db.contacts.map (resetContactRowFn cid),
                blacklist := s.db.blacklist,
                campaign_accounts := s.db.campaign_accounts },
        activeCampaigns := s.activeCampaigns.filter (fun p => decide (p.1 ≠ cid)) } := by
  simp only [resetCampaign, stopCampaign, resetDbUpdate, resetContactsUpdate, stopDbUpdate]
  congr 1
  congr 1
  all_goals (rw [List.map_map]; apply List.map_congr_left; intro c _;
             simp only [Function.comp, resetCampaignRowFn];
             by_cases h : c.id = cid <;> simp [h])

/-- C7: Idempotent reset.  After `resetCampaign` every contact of the
campaign is `pending` with `sent_by_account_id`/`sent_at`/`error`
cleared, the campaign row is `draft` with both timestamps cleared, and
running `resetCampaign` again (at any later timestamp) returns the exact
same state with no error. -/
theorem C7_idempotent_reset (s : Scheduler) (cid n1 n2 : Nat) :
    (∀ c ∈ (resetCampaign s cid n1).db.contacts, c.campaign_id = cid →
        c.status = KStatus.pending ∧ c.sent_by_account_id = none ∧
        c.sent_at = none ∧ c.error = none) ∧
    (∀ camp ∈ (resetCampaign s cid n1).db.campaigns, camp.id = cid →
        camp.status = CStatus.draft ∧ camp.started_at = none ∧
        camp.completed_at = none) ∧
    resetCampaign (resetCampaign s cid n1) cid n2 = resetCampaign s cid n1 := by
  refine ⟨?_, ?_, ?_⟩
  · intro c hmem hcid
    rw [resetCampaign_normal] at hmem
    obtain ⟨c0, hc0, hfc0⟩ := List.mem_map.1 hmem
    by_cases h : c0.campaign_id = cid
    · rw [resetContactRowFn, if_pos h] at hfc0
      rw [← hfc0]
      exact ⟨rfl, rfl, rfl, rfl⟩
    · rw [resetContactRowFn, if_neg h] at hfc0
      rw [← hfc0] at hcid
      exact absurd hcid h
  · intro camp hmem hcid
    rw [resetCampaign_normal] at hmem
    obtain ⟨c0, hc0, hfc0⟩ := List.mem_map.1 hmem
    by_cases h : c0.id = cid
    · rw [resetCampaignRowFn, if_pos h] at hfc0
      rw [← hfc0]
      exact ⟨rfl, rfl, rfl⟩
    · rw [resetCampaignRowFn, if_neg h] at hfc0
      rw [← hfc0] at hcid
      exact absurd hcid h
  · rw [resetCampaign_normal s cid n1, resetCampaign_normal]
    dsimp only
    congr 1
    · congr 1
      · rw [List.map_map]
        apply List.map_congr_left
        intro c _
        simp only [Function.comp, resetCampaignRowFn]
        by_cases h : c.id = cid <;> simp [h]
      · rw [List.map_map]
        apply List.map_congr_left
        intro c _
        simp only [Function.comp, resetContactRowFn]
        by_cases h : c.campaign_id = cid <;> simp [h]
    · rw [List.filter_filter]
      apply List.filter_congr
      intro x _
      simp

def campC7 : Campaign := ⟨1, "c7", "m", CStatus.running, 1, 3, 10, 9, 18, some 2, none⟩
def cC7 : Contact := ⟨31, 1, "+7", KStatus.sent, some 50, some 3, none⟩
def schC7 : Scheduler := ⟨⟨[campC7], [cC7], [], []⟩, [(1, ⟨true, [50], [(50, 1)], "2026-01-01"⟩)]⟩

/-- Witness for C7 at a concrete scheduler with one sent contact. -/
theorem C7_idempotent_reset_witness :
    ((⟨31, 1, "+7", KStatus.pending, none, none, none⟩ : Contact).status = KStatus.pending ∧
     (⟨31, 1, "+7", KStatus.pending, none, none, none⟩ : Contact).sent_by_account_id = none ∧
     (⟨31, 1, "+7", KStatus.pending, none, none, none⟩ : Contact).sent_at = none ∧
     (⟨31, 1, "+7", KStatus.pending, none, none, none⟩ : Contact).error = none) ∧
    resetCampaign (resetCampaign schC7 1 9) 1 4 = resetCampaign schC7 1 9 :=
  ⟨(C7_idempotent_reset schC7 1 9 4).1 ⟨31, 1, "+7", KStatus.pending, none, none, none⟩
     (by decide) rfl,
   (C7_idempotent_reset schC7 1 9 4).2.2⟩

/-! ### Interleaving semantics for racing account workers

Every database access in `sendNextMessageFromAccount` is synchronous; the
only suspension point of a cycle is the `await` on the transport send
(source lines 456/459).  A cycle therefore splits into atomic stretches:
the claim stretch (claim query + claim update, lines 338-433), the finish
stretch (writing the outcome after the await resolves, lines 462-554),
and — for a disconnected account — the release stretch (lines 315-333).
Workers of one campaign interleave these stretches arbitrarily. -/

/-- Where one worker's cycle stands between suspension points: `idle`
(between cycles) or `holding c` (it claimed contact `c` and is awaiting
the transport send). -/
inductive WPhase where
  | idle
  | holding (contactId : Nat)
deriving DecidableEq, Repr

/-- One account worker: account id, transport connectivity, cycle phase. -/
structure Worker where
  accountId : Nat
  connected : Bool
  phase : WPhase
deriving DecidableEq, Repr

/-- A campaign's runtime system: the database plus its workers. -/
structure Sys where
  db : DB
  workers : List Worker
deriving DecidableEq, Repr

/-- Kinds of atomic steps of the interleaving semantics. -/
inductive StepKind where
  | claimK | finishK | releaseK
deriving DecidableEq, Repr

/-- Number of workers in `ws` currently holding the claim on `cId`. -/
def holdersIn (ws : List Worker) (cId : Nat) : Nat :=
  ws.countP (fun w => decide (w.phase = WPhase.holding cId))

/-- Number of workers of the system holding the claim on `cId`. -/
def holderCount (s : Sys) (cId : Nat) : Nat :=
  holdersIn s.workers cId

/-- Whether `l` has a contact with id `cId` in status `sending`. -/
def sendingIn (l : List Contact) (cId : Nat) : Bool :=
  l.any (fun c => decide (c.id = cId ∧ c.status = KStatus.sending))

/-- The claim-exclusivity invariant: contact ids are unique, and every
held contact has exactly one holder and is `sending` in the database. -/
def invB (s : Sys) : Bool :=
  decide ((s.db.contacts.map (fun c => c.id)).Nodup) &&
  s.workers.all (fun w =>
    match w.phase with
    | WPhase.idle => true
    | WPhase.holding cId =>
        decide (holdersIn s.workers cId = 1) && sendingIn s.db.contacts cId)

/-- Atomic steps of campaign `cid`'s workers, one constructor per
await-free stretch of the worker cycle: `claim` (claim query plus the
`sending` update, then suspend on the transport await), `finishOk` /
`finishFail` (the awaited send resolves and its outcome is written),
`release` (a disconnected idle worker's cycle runs the stuck-release
update and claims nothing).  The worker list is split `pre ++ w :: post`
to name the stepping worker. -/
inductive Step (cid : Nat) : StepKind → Sys → Sys → Prop
  | claim (db : DB) (pre post : List Worker) (w : Worker) (c : Contact)
      (hidle : w.phase = WPhase.idle) (hconn : w.connected = true)
      (hq : claimNextQuery db cid = some c) :
      Step cid StepKind.claimK ⟨db, pre ++ w :: post⟩
        ⟨claimContact db c.id,
         pre ++ { w with phase := WPhase.holding c.id } :: post⟩
  | finishOk (db : DB) (pre post : List Worker) (w : Worker) (cId now : Nat)
      (hhold : w.phase = WPhase.holding cId) :
      Step cid StepKind.finishK ⟨db, pre ++ w :: post⟩
        ⟨markContactSent db cId w.accountId now,
         pre ++ { w with phase := WPhase.idle } :: post⟩
  | finishFail (db : DB) (pre post : List Worker) (w : Worker) (cId : Nat) (msg : String)
      (hhold : w.phase = WPhase.holding cId) :
      Step cid StepKind.finishK ⟨db, pre ++ w :: post⟩
        ⟨handleSendFailure db cId msg,
         pre ++ { w with phase := WPhase.idle } :: post⟩
  | release (db : DB) (pre post : List Worker) (w : Worker)
      (hidle : w.phase = WPhase.idle) (hconn : w.connected = false) :
      Step cid StepKind.releaseK ⟨db, pre ++ w :: post⟩
        ⟨releaseStuckContacts db cid, pre ++ w :: post⟩

/-- Reachability under the interleaving semantics. -/
inductive Reach (cid : Nat) : Sys → Sys → Prop
  | refl (s : Sys) : Reach cid s s
  | tail {s t u : Sys} {k : StepKind} (hr : Reach cid s t) (hs : Step cid k t u) :
      Reach cid s u

lemma invB_iff (s : Sys) :
    invB s = true ↔
      ((s.db.contacts.map (fun c => c.id)).Nodup ∧
       ∀ w ∈ s.workers, ∀ cId, w.phase = WPhase.holding cId →
         holdersIn s.workers cId = 1 ∧ sendingIn s.db.contacts cId = true) := by
  unfold invB
  rw [Bool.and_eq_true, decide_eq_true_iff, List.all_eq_true]
  constructor
  · rintro ⟨h1, h2⟩
    refine ⟨h1, ?_⟩
    intro w hw cId hph
    have h3 := h2 w hw
    rw [hph] at h3
    simpa [Bool.and_eq_true, decide_eq_true_iff] using h3
  · rintro ⟨h1, h2⟩
    refine ⟨h1, ?_⟩
    intro w hw
    cases hph : w.phase with
    | idle => rfl
    | holding cId =>
      have h3 := h2 w hw cId hph
      simp [Bool.and_eq_true, decide_eq_true_iff, h3.1, h3.2]

lemma map_id_comp (l : List Contact) (f : Contact → Contact)
    (hf : ∀ c, (f c).id = c.id) :
    (l.map f).map (fun c => c.id) = l.map (fun c => c.id) := by
  rw [List.map_map]
  apply List.map_congr_left
  intro c _
  simp [Function.comp, hf]

lemma sendingIn_map_other (l : List Contact) (f : Contact → Contact) (tgt cId : Nat)
    (hother : ∀ c, c.id ≠ tgt → f c = c) (hne : cId ≠ tgt)
    (h : sendingIn l cId = true) : sendingIn (l.map f) cId = true := by
  rw [sendingIn, List.any_eq_true] at h ⊢
  obtain ⟨c, hc, hp⟩ := h
  have hcp := of_decide_eq_true hp
  have hfc : f c = c := hother c (by rw [hcp.1]; exact hne)
  exact ⟨c, by rw [← hfc]; exact List.mem_map_of_mem f hc, hp⟩

lemma holdersIn_append_cons (pre post : List Worker) (a : Worker) (cId : Nat) :
    holdersIn (pre ++ a :: post) cId =
      holdersIn pre cId + holdersIn post cId +
        (if a.phase = WPhase.holding cId then 1 else 0) := by
  by_cases h : a.phase = WPhase.holding cId <;>
    simp [holdersIn, List.countP_append, List.countP_cons, h]
  omega

lemma holdersIn_eq_zero (ws : List Worker) (cId : Nat)
    (h : ∀ w ∈ ws, w.phase ≠ WPhase.holding cId) : holdersIn ws cId = 0 := by
  rw [holdersIn, List.countP_eq_zero]
  intro w hw
  simpa using h w hw

lemma eq_of_mem_of_id_eq (l : List Contact)
    (hnd : (l.map (fun c => c.id)).Nodup)
    (x y : Contact) (hx : x ∈ l) (hy : y ∈ l) (hid : x.id = y.id) : x = y :=
  List.inj_on_of_nodup_map hnd hx hy hid

/-- Preservation of the exclusivity invariant by a finish step: the
stepping worker releases its hold on `tgt` and the database write `f`
touches only the row with id `tgt`. -/
lemma inv_finish_general (db : DB) (pre post : List Worker) (w : Worker)
    (tgt : Nat) (f : Contact → Contact)
    (hfid : ∀ c, (f c).id = c.id)
    (hother : ∀ c, c.id ≠ tgt → f c = c)
    (hhold : w.phase = WPhase.holding tgt)
    (hinv : invB ⟨db, pre ++ w :: post⟩ = true) :
    invB ⟨{ db with contacts := db.contacts.map f },
          pre ++ { w with phase := WPhase.idle } :: post⟩ = true := by
  rw [invB_iff] at hinv ⊢
  obtain ⟨hnd, hws⟩ := hinv
  dsimp only at hws ⊢
  constructor
  · rw [map_id_comp db.contacts f hfid]
    exact hnd
  · intro w0 hw0 cId hph
    have hsplit : w0 ∈ pre ∨ w0 ∈ post := by
      rcases List.mem_append.1 hw0 with h | h
      · exact Or.inl h
      · rcases List.mem_cons.1 h with h | h
        · rw [h] at hph
          simp at hph
        · exact Or.inr h
    have hw0old : w0 ∈ pre ++ w :: post := by
      rcases hsplit with h | h
      · exact List.mem_append.2 (Or.inl h)
      · exact List.mem_append.2 (Or.inr (List.mem_cons.2 (Or.inr h)))
    have hold := hws w0 hw0old cId hph
    have hne : cId ≠ tgt := by
      intro he
      subst he
      have hcnt := holdersIn_append_cons pre post w cId
      rw [if_pos hhold] at hcnt
      have hgeone : 0 < holdersIn pre cId + holdersIn post cId := by
        rcases hsplit with h | h
        · have hpos : 0 < holdersIn pre cId := by
            rw [holdersIn]
            exact List.countP_pos_iff.2 ⟨w0, h, by simpa using hph⟩
          omega
        · have hpos : 0 < holdersIn post cId := by
            rw [holdersIn]
            exact List.countP_pos_iff.2 ⟨w0, h, by simpa using hph⟩
          omega
      have hone := hold.1
      omega
    have hw_not : w.phase ≠ WPhase.holding cId := by
      rw [hhold]
      intro hx
      injection hx with hx2
      exact hne hx2.symm
    have hwi_not : ({ w with phase := WPhase.idle } : Worker).phase ≠
        WPhase.holding cId := by
      intro hx
      simp at hx
    constructor
    · have h1 := holdersIn_append_cons pre post w cId
      have h2 := holdersIn_append_cons pre post { w with phase := WPhase.idle } cId
      rw [if_neg hw_not] at h1
      rw [if_neg hwi_not] at h2
      have hone := hold.1
      omega
    · exact sendingIn_map_other db.contacts f tgt cId hother hne hold.2

/-- Preservation of the exclusivity invariant by a claim step: the claim
query only returns a `pending` row, a `pending` row has no holder, and
the claim update makes the claimed row the new worker's unique hold. -/
lemma inv_claim_general (cid : Nat) (db : DB) (pre post : List Worker) (w : Worker)
    (c : Contact)
    (hidle : w.phase = WPhase.idle)
    (hq : claimNextQuery db cid = some c)
    (hinv : invB ⟨db, pre ++ w :: post⟩ = true) :
    invB ⟨claimContact db c.id,
          pre ++ { w with phase := WPhase.holding c.id } :: post⟩ = true := by
  rw [invB_iff] at hinv ⊢
  obtain ⟨hnd, hws⟩ := hinv
  dsimp only at hws ⊢
  have hcp := claimNextQuery_found db cid c hq
  have hcmem : c ∈ db.contacts := by
    unfold claimNextQuery at hq
    exact List.mem_of_find?_eq_some hq
  have hfid : ∀ c0 : Contact,
      ((fun c0 => if c0.id = c.id then { c0 with status := KStatus.sending } else c0) c0).id
        = c0.id := by
    intro c0
    by_cases h : c0.id = c.id <;> simp [h]
  have hother : ∀ c0 : Contact, c0.id ≠ c.id →
      (fun c0 => if c0.id = c.id then { c0 with status := KStatus.sending } else c0) c0
        = c0 := by
    intro c0 h
    simp [h]
  have hnohold : ∀ w0 ∈ pre ++ w :: post, w0.phase ≠ WPhase.holding c.id := by
    intro w0 hw0 hph
    have hold := hws w0 hw0 c.id hph
    have hsend := hold.2
    rw [sendingIn, List.any_eq_true] at hsend
    obtain ⟨c', hc', hp⟩ := hsend
    have hcp' := of_decide_eq_true hp
    have hceq : c' = c := eq_of_mem_of_id_eq db.contacts hnd c' c hc' hcmem hcp'.1
    rw [hceq, hcp.2.1] at hcp'
    cases hcp'.2
  have hprezero : holdersIn pre c.id = 0 :=
    holdersIn_eq_zero pre c.id (fun w0 h => hnohold w0 (List.mem_append.2 (Or.inl h)))
  have hpostzero : holdersIn post c.id = 0 :=
    holdersIn_eq_zero post c.id
      (fun w0 h => hnohold w0 (List.mem_append.2 (Or.inr (List.mem_cons.2 (Or.inr h)))))
  have hnewcnt :
      holdersIn (pre ++ { w with phase := WPhase.holding c.id } :: post) c.id = 1 := by
    have h2 := holdersIn_append_cons pre post { w with phase := WPhase.holding c.id } c.id
    rw [if_pos rfl] at h2
    omega
  have hsend_new : sendingIn (claimContact db c.id).contacts c.id = true := by
    show sendingIn (db.contacts.map _) c.id = true
    rw [sendingIn, List.any_eq_true]
    refine ⟨{ c with status := KStatus.sending }, ?_, by simp⟩
    have hmm := List.mem_map_of_mem
      (fun c0 => if c0.id = c.id then { c0 with status := KStatus.sending } else c0) hcmem
    simpa using hmm
  constructor
  · show ((db.contacts.map
        (fun c0 => if c0.id = c.id then { c0 with status := KStatus.sending } else c0)).map
          (fun x => x.id)).Nodup
    rw [map_id_comp db.contacts _ hfid]
    exact hnd
  · intro w0 hw0 cId hph
    rcases List.mem_append.1 hw0 with hpre | hrest
    · -- w0 unchanged, in pre
      have hw0old : w0 ∈ pre ++ w :: post := List.mem_append.2 (Or.inl hpre)
      have hold := hws w0 hw0old cId hph
      have hne : cId ≠ c.id := by
        intro he
        rw [he] at hph
        exact hnohold w0 hw0old hph
      have hw_not : w.phase ≠ WPhase.holding cId := by
        rw [hidle]
        intro hx
        simp at hx
      have hwh_not : ({ w with phase := WPhase.holding c.id } : Worker).phase ≠
          WPhase.holding cId := by
        intro hx
        have hx2 : WPhase.holding c.id = WPhase.holding cId := hx
        injection hx2 with hx3
        exact hne hx3.symm
      constructor
      · have h1 := holdersIn_append_cons pre post w cId
        have h2 := holdersIn_append_cons pre post { w with phase := WPhase.holding c.id } cId
        rw [if_neg hw_not] at h1
        rw [if_neg hwh_not] at h2
        have hone := hold.1
        omega
      · show sendingIn (db.contacts.map _) cId = true
        exact sendingIn_map_other db.contacts _ c.id cId hother hne hold.2
    · rcases List.mem_cons.1 hrest with heq | hpost
      · -- w0 is the new holder
        rw [heq] at hph
        have hph2 : WPhase.holding c.id = WPhase.holding cId := hph
        injection hph2 with hid
        rw [← hid]
        exact ⟨hnewcnt, hsend_new⟩
      · -- w0 unchanged, in post
        have hw0old : w0 ∈ pre ++ w :: post :=
          List.mem_append.2 (Or.inr (List.mem_cons.2 (Or.inr hpost)))
        have hold := hws w0 hw0old cId hph
        have hne : cId ≠ c.id := by
          intro he
          rw [he] at hph
          exact hnohold w0 hw0old hph
        have hw_not : w.phase ≠ WPhase.holding cId := by
          rw [hidle]
          intro hx
          simp at hx
        have hwh_not : ({ w with phase := WPhase.holding c.id } : Worker).phase ≠
            WPhase.holding cId := by
          intro hx
          have hx2 : WPhase.holding c.id = WPhase.holding cId := hx
          injection hx2 with hx3
          exact hne hx3.symm
        constructor
        · have h1 := holdersIn_append_cons pre post w cId
          have h2 := holdersIn_append_cons pre post { w with phase := WPhase.holding c.id } cId
          rw [if_neg hw_not] at h1
          rw [if_neg hwh_not] at h2
          have hone := hold.1
          omega
        · show sendingIn (db.contacts.map _) cId = true
          exact sendingIn_map_other db.contacts _ c.id cId hother hne hold.2

/-- C1 amended: the claim step itself is exclusive — starting from a state
where every held contact has a unique holder and is `sending` (and
contact ids are unique), any non-`release` step (a claim, which runs the
claim query and the `sending` update in one await-free stretch, or a
send completion) preserves that at every instant at most one worker holds
the claim on any contact.  Only the disconnected-account `release` step
can break exclusivity (see the counterexample). -/
theorem C1_claim_exclusivity_amended (cid : Nat) (k : StepKind) (s t : Sys)
    (hinv : invB s = true) (hk : k ≠ StepKind.releaseK)
    (hstep : Step cid k s t) : invB t = true := by
  cases hstep with
  | claim db pre post w c hidle hconn hq =>
    exact inv_claim_general cid db pre post w c hidle hq hinv
  | finishOk db pre post w cId now hhold =>
    refine inv_finish_general db pre post w cId
      (fun c0 => if c0.id = cId
        then { c0 with status := KStatus.sent, sent_by_account_id := some w.accountId,
                       sent_at := some now }
        else c0) ?_ ?_ hhold hinv
    · intro c0
      by_cases h : c0.id = cId <;> simp [h]
    · intro c0 h
      simp [h]
  | finishFail db pre post w cId msg hhold =>
    show invB ⟨handleSendFailure db cId msg, _⟩ = true
    unfold handleSendFailure
    split
    · refine inv_finish_general db pre post w cId
        (fun c0 => if c0.id = cId
          then { c0 with status := KStatus.failed, error := some msg }
          else c0) ?_ ?_ hhold hinv
      · intro c0
        by_cases h : c0.id = cId <;> simp [h]
      · intro c0 h
        simp [h]
    · refine inv_finish_general db pre post w cId
        (fun c0 => if c0.id = cId then { c0 with status := KStatus.pending } else c0)
        ?_ ?_ hhold hinv
      · intro c0
        by_cases h : c0.id = cId <;> simp [h]
      · intro c0 h
        simp [h]
  | release db pre post w hidle hconn =>
    exact absurd rfl hk

def cX : Contact := ⟨7, 1, "+777", KStatus.pending, none, none, none⟩
def dbX0 : DB := ⟨[], [cX], [], []⟩
def wA : Worker := ⟨100, true, WPhase.idle⟩
def wB : Worker := ⟨200, false, WPhase.idle⟩
def wC : Worker := ⟨300, true, WPhase.idle⟩
def wAh : Worker := ⟨100, true, WPhase.holding 7⟩
def wCh : Worker := ⟨300, true, WPhase.holding 7⟩
def dbX1 : DB := claimContact dbX0 7
def dbX2 : DB := releaseStuckContacts dbX1 1
def dbX3 : DB := claimContact dbX2 7
def sysX0 : Sys := ⟨dbX0, [wA, wB, wC]⟩
def sysX3 : Sys := ⟨dbX3, [wAh, wB, wCh]⟩

/-- Witness for the amended C1: the concrete claim step by worker `wA`
from the good initial state preserves the invariant. -/
theorem C1_claim_exclusivity_amended_witness :
    invB ⟨dbX1, [wAh, wB, wC]⟩ = true :=
  C1_claim_exclusivity_amended 1 StepKind.claimK sysX0 ⟨dbX1, [wAh, wB, wC]⟩
    (by decide) (by decide)
    (@Step.claim 1 dbX0 [] [wB, wC] wA cX rfl rfl (by decide))

/-- Counterexample to C1 as stated: from a well-formed initial state
(one pending contact, three idle workers, worker 200 disconnected), the
interleaving claim-by-100 → release-by-200 → claim-by-300 is reachable;
in the resulting state workers 100 and 300 simultaneously hold the
`sending` claim on contact 7 — the release step revoked an in-flight
claim because the claim update records no claimant. -/
theorem C1_counterexample :
    invB sysX0 = true ∧
    Reach 1 sysX0 sysX3 ∧
    holderCount sysX3 7 = 2 ∧
    wAh.phase = WPhase.holding 7 ∧ wCh.phase = WPhase.holding 7 := by
  refine ⟨by decide, ?_, by decide, rfl, rfl⟩
  have h1 : Step 1 StepKind.claimK sysX0 ⟨dbX1, [wAh, wB, wC]⟩ :=
    @Step.claim 1 dbX0 [] [wB, wC] wA cX rfl rfl (by decide)
  have h2 : Step 1 StepKind.releaseK ⟨dbX1, [wAh, wB, wC]⟩ ⟨dbX2, [wAh, wB, wC]⟩ :=
    @Step.release 1 dbX1 [wAh] [wC] wB rfl rfl
  have h3 : Step 1 StepKind.claimK ⟨dbX2, [wAh, wB, wC]⟩ sysX3 :=
    @Step.claim 1 dbX2 [wAh, wB] [] wC cX rfl rfl (by decide)
  exact Reach.tail (Reach.tail (Reach.tail (Reach.refl sysX0) h1) h2) h3

/-- C9 amended: a worker cycle that finds its transport not-connected
(and is under its daily cap) claims nothing and sends nothing — its only
database effect is the release update — but that update releases ALL of
the campaign's contacts in `sending` with `sent_by_account_id` NULL.
Because the claim update never records a claimant, this includes contacts
claimed and currently in flight by other, connected accounts, not only
this worker's own stuck claims. -/
theorem C9_disconnected_cycle_amended (db : DB) (st : CampaignState)
    (cid accountId today now : Nat) (transport : Contact → SendOutcome)
    (camp : Campaign) (hc : getCampaign db cid = some camp)
    (hlim : sentTodayOf st accountId < camp.max_messages_per_day) :
    sendNextMessageFromAccount db st cid accountId today now false transport =
      (releaseStuckContacts db cid, st, CycleAction.notConnectedSkip) ∧
    (∀ c ∈ db.contacts,
        c.campaign_id = cid → c.status = KStatus.sending → c.sent_by_account_id = none →
        { c with status := KStatus.pending } ∈ (releaseStuckContacts db cid).contacts) ∧
    (∀ c ∈ db.contacts,
        ¬(c.campaign_id = cid ∧ c.status = KStatus.sending ∧ c.sent_by_account_id = none) →
        c ∈ (releaseStuckContacts db cid).contacts) := by
  have hnle : ¬(camp.max_messages_per_day ≤ sentTodayOf st accountId) := by omega
  refine ⟨?_, ?_, ?_⟩
  · simp only [sendNextMessageFromAccount, hc, if_neg hnle, Bool.not_false, if_true]
  · intro c hmem hcid hsend hnull
    simp only [releaseStuckContacts]
    refine List.mem_map.2 ⟨c, hmem, ?_⟩
    rw [if_pos ⟨hcid, hsend, hnull⟩]
  · intro c hmem hcond
    simp only [releaseStuckContacts]
    refine List.mem_map.2 ⟨c, hmem, ?_⟩
    rw [if_neg hcond]

def cC9 : Contact := ⟨7, 1, "+9", KStatus.sending, none, none, none⟩
def campC9 : Campaign := ⟨1, "c9", "m", CStatus.running, 1, 3, 10, 9, 18, some 0, none⟩
def dbC9 : DB := ⟨[campC9], [cC9], [], []⟩
def wHold : Worker := ⟨100, true, WPhase.holding 7⟩
def wDisc : Worker := ⟨200, false, WPhase.idle⟩
def stC9 : CampaignState := ⟨true, [100, 200], [], "2026-01-01"⟩

/-- Witness for the amended C9 at a concrete state with one in-flight
`sending` contact: the disconnected cycle returns the release-only result
and the contact is reverted to pending. -/
theorem C9_disconnected_cycle_amended_witness :
    sendNextMessageFromAccount dbC9 stC9 1 200 0 5 false (fun _ => SendOutcome.success) =
      (releaseStuckContacts dbC9 1, stC9, CycleAction.notConnectedSkip) ∧
    { cC9 with status := KStatus.pending } ∈ (releaseStuckContacts dbC9 1).contacts :=
  ⟨(C9_disconnected_cycle_amended dbC9 stC9 1 200 0 5 (fun _ => SendOutcome.success)
      campC9 (by decide) (by decide)).1,
   (C9_disconnected_cycle_amended dbC9 stC9 1 200 0 5 (fun _ => SendOutcome.success)
      campC9 (by decide) (by decide)).2.1 cC9 (by decide) rfl rfl rfl⟩

/-- Counterexample to C9 as stated: contact 7 is `sending` with NULL
claimant because connected worker 100 claimed it and is mid-flight
(holding it, awaiting the transport).  The disconnected worker 200's
cycle — which by the claim should release only contacts IT previously
claimed — performs the release step and reverts contact 7 to `pending`
while worker 100 is still in flight on it. -/
theorem C9_counterexample :
    wHold.connected = true ∧ wHold.phase = WPhase.holding 7 ∧
    cC9.status = KStatus.sending ∧ cC9.sent_by_account_id = none ∧
    Step 1 StepKind.releaseK ⟨dbC9, [wHold, wDisc]⟩
      ⟨releaseStuckContacts dbC9 1, [wHold, wDisc]⟩ ∧
    sendNextMessageFromAccount dbC9 stC9 1 200 0 5 false (fun _ => SendOutcome.success) =
      (releaseStuckContacts dbC9 1, stC9, CycleAction.notConnectedSkip) ∧
    (releaseStuckContacts dbC9 1).contacts = [{ cC9 with status := KStatus.pending }] := by
  refine ⟨rfl, rfl, rfl, rfl, ?_, by decide, by decide⟩
  exact @Step.release 1 dbC9 [wHold] [] wDisc rfl rfl
